import Mathlib

/-
Verification of the release packaging script (release_ce_project.py).

The script is a sequence of file-system operations.  We embed it shallowly:

* a file is a pair of a path (a String, with the components of an
  os.path.join joined by a single separator character) and its byte
  content, abstracted as a Nat;
* each function of the script becomes a pure Lean function from the
  directory listings it reads to the list of files it writes;
* the module-level mutable variable dll_name is threaded explicitly;
* Python primitives used by the script (fnmatch.fnmatch, str.split,
  str.lower, str.endswith, the substring operator) are reimplemented on
  lists of characters, faithful to their Python semantics on the inputs
  the script feeds them (the exclude patterns use only literal characters
  and the star, so character classes are not modelled).
-/

namespace ReleaseCE

/-- Initial-segment test on character lists: listLE n h is true when n is
an initial segment of h.  Used to build the substring test below. -/
def listLE : List Char → List Char → Bool
  | [], _ => true
  | _ :: _, [] => false
  | a :: as, b :: bs => a == b && listLE as bs

/-- Substring test on character lists, modelling the Python expression
needle in hay on strings. -/
def containsSub (needle : List Char) : List Char → Bool
  | [] => needle.isEmpty
  | c :: rest => listLE needle (c :: rest) || containsSub needle rest

/-- Python str.lower, restricted to the ASCII case mapping. -/
def pyLower (s : String) : String :=
  String.mk (s.data.map Char.toLower)

/-- Python str.endswith. -/
def pyEndsWith (s sfx : String) : Bool :=
  listLE sfx.data.reverse s.data.reverse

/-- Python str.split with a one-character separator: splits on every
occurrence, keeping empty fields, and yields one field even for the
empty string. -/
def pySplit (sep : Char) : List Char → List (List Char)
  | [] => [[]]
  | c :: rest =>
    match pySplit sep rest with
    | [] => [[]]
    | r :: rs => if c == sep then [] :: r :: rs else (c :: r) :: rs

/-- Python fnmatch.fnmatch on character lists, for patterns built from
literal characters, the star and the question mark (the only pattern
syntax the script uses).  As in fnmatch, a star matches any sequence of
characters, including the path separator, so a double star behaves the
same as a single star. -/
def gmatch : List Char → List Char → Bool
  | s, [] => s.isEmpty
  | s, y :: p =>
    if y == '*' then (List.range (s.length + 1)).any (fun k => gmatch (s.drop k) p)
    else
      match s with
      | [] => false
      | c :: s2 => (y == '?' || c == y) && gmatch s2 p

/-- The fnmatch.fnmatch call of the script, on strings. -/
def fnmatchB (path pattern : String) : Bool :=
  gmatch path.data pattern.data

/-- The os.path.join of two components, with a fixed separator. -/
def joinP (a b : String) : String :=
  a ++ "/" ++ b

/-- Module-level default value of the dll_name variable. -/
def dll_name0 : String := "Game.dll"

/-- The excludes list of copy_engine_binaries, in source order. -/
def excludes : List String :=
  ["imageformats**",
   "ToolkitPro*",
   "platforms**",
   "Qt*",
   "mfc*",
   "CryGame*",
   "Sandbox*",
   "ShaderCacheGen*",
   "smpeg2*",
   "icu*",
   "python27*",
   "LuaCompiler*",
   "Editor**",
   "PySide2*",
   "shiboken*",
   "crashrpt*",
   "CrashSender*"]

/-- Model of copy_engine_binaries.  The input list holds every file the
os.walk over rel_dir finds, as the script records it in copypaths: the
path relative to the engine root, which therefore starts with rel_dir,
paired with the byte content.  A file is copied to the same relative
path under the export root unless the path matches some exclude pattern
joined with rel_dir; the output is the list of copied files. -/
def copy_engine_binaries (relDir : String) (files : List (String × Nat)) :
    List (String × Nat) :=
  files.filter (fun f => !(excludes.any (fun pat => fnmatchB f.1 (joinP relDir pat))))

/-- The level_files whitelist of copy_levels, in source order. -/
def level_files : List String :=
  ["filelist.xml", "terraintexture.pak", "level.pak"]

/-- One file found by the os.walk over the levels subtree of the project
asset directory: the directory part (root, as yielded by os.walk, a path
relative to the Assets directory starting with levels) and the file
name, plus the byte content. -/
structure LevelFile where
  root : String
  name : String
  content : Nat
  deriving DecidableEq

/-- Model of copy_levels: every walked file whose name is in the
whitelist is copied to the same relative path under the Assets directory
of the export root. -/
def copy_levels (files : List LevelFile) : List (String × Nat) :=
  (files.filter (fun f => level_files.contains f.name)).map
    (fun f => (joinP "Assets" (joinP f.root f.name), f.content))

/-- Content of a file placed in the export tree: raw bytes for a plain
copy, an archive for a directory packed by package_assets (the archive
is a deterministic function of the packed files, abstracting the zip
stream), or text for the written configuration file. -/
inductive FData where
  | raw (bytes : Nat)
  | zipArchive (files : List (String × Nat))
  | text (s : String)
  deriving DecidableEq

/-- One top-level entry of the project Assets directory, as seen by
os.listdir: either a plain file or a directory with its recursive file
listing. -/
inductive AssetEntry where
  | file (name : String) (content : Nat)
  | dir (name : String) (files : List (String × Nat))
  deriving DecidableEq

/-- Name of a top-level asset entry. -/
def entryName : AssetEntry → String
  | .file n _ => n
  | .dir n _ => n

/-- Model of one iteration of the package_assets loop.  The item path is
the absolute path of the entry, obtained by joining the project path,
the Assets component and the entry name.  An entry whose lower-cased
item path contains the substring levels is skipped, then an entry whose
item path ends in the editor-only archive suffix is skipped; a remaining
plain file is copied into the export Assets directory, and a remaining
directory is archived there as a pak file. -/
def package_one (project_path : String) (e : AssetEntry) : List (String × FData) :=
  let itempath := joinP (joinP project_path "Assets") (entryName e)
  if containsSub "levels".data (pyLower itempath).data then []
  else if pyEndsWith itempath ".cryasset.pak" then []
  else
    match e with
    | .file n c => [(joinP "Assets" n, FData.raw c)]
    | .dir n fs => [(joinP "Assets" (n ++ ".pak"), FData.zipArchive fs)]

/-- Model of package_assets: the loop over the top-level entries of the
project Assets directory. -/
def package_assets (project_path : String) (entries : List AssetEntry) :
    List (String × FData) :=
  entries.flatMap (package_one project_path)

/-- Model of create_config: the two sequential writes into system.cfg in
the export root, so the file content is their concatenation. -/
def create_config (dll_name : String) : String × FData :=
  ("system.cfg", FData.text ("sys_game_folder=Assets\n" ++ ("sys_dll_game=" ++ dll_name ++ "\n")))

/-- Model of copy_game_dll.  The input list is the os.listdir of the
bin/win_x64 directory of the project, with byte contents.  A file whose
absolute path matches the pattern star-dot-dll is copied into
bin/win_x64 under the export root and its name overwrites the dll_name
variable; the result is the final value of dll_name and the copies in
iteration order. -/
def copy_game_dll (project_path : String) (files : List (String × Nat))
    (dll_name : String) : String × List (String × Nat) :=
  match files with
  | [] => (dll_name, [])
  | f :: fs =>
    if gmatch (joinP (joinP (joinP project_path "bin") "win_x64") f.1).data "*.dll".data then
      let r := copy_game_dll project_path fs f.1
      (r.1, (joinP (joinP "bin" "win_x64") f.1, f.2) :: r.2)
    else
      copy_game_dll project_path fs dll_name

/-- Project descriptor, holding the require.engine field of the parsed
cryproject file. -/
structure CryProject where
  require_engine : String
  deriving DecidableEq

/-- Diagnostic output of get_engine_path, one constructor per print call
of the source, carrying the data the print interpolates. -/
inductive OutMsg where
  | unsupportedPlatform
  | foundEngines (table : List (String × String))
  | usingPath (path : String)
  deriving DecidableEq

/-- Error raised by get_engine_path: the IndexError of the list index
when the engine tag has no separator, or the OSError raised with the
given message when the version is not found. -/
inductive PyErr where
  | indexError
  | osError (msg : String)
  deriving DecidableEq

/-- Version extraction of get_engine_path: element one of the split of
the engine tag on the dash, when it exists. -/
def extracted_version (tag : String) : Option String :=
  ((pySplit '-' tag.data).map (fun l => String.mk l))[1]?

/-- Dictionary lookup: the value of the last entry with the given key,
matching the overwrite semantics of building a dict by assignment. -/
def lookupLast (l : List (String × String)) (k : String) : Option String :=
  (l.reverse.find? (fun e => e.1 == k)).map (fun e => e.2)

/-- Lookup candidates built by the registry enumeration loop: on
Windows, the enumerated entries with the falsy (empty) version names
skipped; on any other platform the loop never runs, so no candidates. -/
def candidate_table (isWindows : Bool) (registry : List (String × String)) :
    List (String × String) :=
  if isWindows then registry.filter (fun e => !(e.1 == "")) else []

/-- Model of get_engine_path.  The registry parameter holds the values
enumerated from the registry key in order, available only on Windows;
entries with a falsy (empty) version are skipped.  The result pairs the
diagnostic messages printed with either the returned path or the raised
error. -/
def get_engine_path (isWindows : Bool) (registry : List (String × String))
    (proj : CryProject) : List OutMsg × Except PyErr String :=
  match extracted_version proj.require_engine with
  | none => ([], Except.error PyErr.indexError)
  | some version =>
    let platformMsgs := if isWindows then [] else [OutMsg.unsupportedPlatform]
    let engine_paths := candidate_table isWindows registry
    let msgs := platformMsgs ++ [OutMsg.foundEngines engine_paths]
    match lookupLast engine_paths version with
    | none =>
      (msgs, Except.error (PyErr.osError ("Engine version " ++ version ++ " not found.")))
    | some path =>
      (msgs ++ [OutMsg.usingPath path], Except.ok path)

/-- Version extraction as the specification words it: the entire
substring after the first separator in the tag (empty when the tag has
no separator).  Stated for comparison with extracted_version, which is
what the code computes. -/
def spec_version_after_first_sep (tag : String) : String :=
  match tag.data.dropWhile (fun c => !(c == '-')) with
  | [] => ""
  | _ :: rest => String.mk rest

/-- Fixed source state of one pipeline run: the project path, the
listings the script reads, and the engine files it mirrors. -/
structure Source where
  project_path : String
  engineCommon : List (String × Nat)
  engineBinFiles : List (String × Nat)
  assetEntries : List AssetEntry
  levelFiles : List LevelFile
  binFiles : List (String × Nat)
  deriving DecidableEq

/-- One run of the body of main after engine resolution: the export
tree is rebuilt from the source state, and the dll_name variable is
threaded through copy_game_dll into create_config.  The result is the
export tree (path-content pairs in creation order) and the final value
of dll_name. -/
def build_export (src : Source) (dll_name : String) :
    List (String × FData) × String :=
  let r := copy_game_dll src.project_path src.binFiles dll_name
  (src.engineCommon.map (fun f => (joinP "engine" f.1, FData.raw f.2))
     ++ (copy_engine_binaries (joinP "bin" "win_x64") src.engineBinFiles).map
          (fun f => (f.1, FData.raw f.2))
     ++ package_assets src.project_path src.assetEntries
     ++ (copy_levels src.levelFiles).map (fun f => (f.1, FData.raw f.2))
     ++ r.2.map (fun f => (f.1, FData.raw f.2))
     ++ [create_config r.1],
   r.1)

/-- Model of main on a fixed source state: the pre-existing export tree
is deleted (shutil.rmtree) and rebuilt from scratch, while the dll_name
variable keeps the value the previous run left in the process. -/
def run_pipeline (src : Source) (st : List (String × FData) × String) :
    List (String × FData) × String :=
  build_export src st.2

/-- Rebuilding a String from its character data is the identity. -/
theorem string_mk_data (s : String) : String.mk s.data = s := rfl

/-- Matching a path against a pattern, both carrying the literal prefix
that joining with the copy root bin/win_x64 adds, is the same as
matching the path without the prefix against the bare pattern. -/
theorem gmatch_root_elim (s p : List Char) :
    gmatch ("bin/win_x64/".data ++ s) ("bin/win_x64/".data ++ p) = gmatch s p := by
  simp [gmatch]

/-- The fnmatch call of copy_engine_binaries, with the walked path and
the pattern both joined under bin/win_x64, agrees with matching the
path relative to the copy root against the bare pattern. -/
theorem fnmatch_join_root (rel pat : String) :
    fnmatchB ("bin/win_x64/" ++ rel) (joinP (joinP "bin" "win_x64") pat)
      = fnmatchB rel pat := by
  have h := gmatch_root_elim rel.data pat.data
  simpa [fnmatchB, joinP, String.data_append] using h

/-- An initial segment of a list is an initial segment of any extension. -/
theorem listLE_append_right (n s t : List Char) (h : listLE n s = true) :
    listLE n (s ++ t) = true := by
  induction n generalizing s with
  | nil => rfl
  | cons a as ih =>
    cases s with
    | nil => simp [listLE] at h
    | cons b bs =>
      simp [listLE] at h
      simp [listLE, h.1, ih bs h.2]

/-- A substring of a list is a substring of any extension on the right. -/
theorem containsSub_append_right (n h t : List Char)
    (hc : containsSub n h = true) : containsSub n (h ++ t) = true := by
  induction h with
  | nil =>
    simp [containsSub] at hc
    subst hc
    induction t with
    | nil => rfl
    | cons c cs ih => simp [containsSub, listLE]
  | cons c cs ih =>
    simp only [containsSub, Bool.or_eq_true] at hc
    rcases hc with hc | hc
    · simp only [List.cons_append, containsSub, Bool.or_eq_true]
      exact Or.inl (listLE_append_right n (c :: cs) t hc)
    · simp only [List.cons_append, containsSub, Bool.or_eq_true]
      exact Or.inr (ih hc)

/-- Splitting a list that starts with a separator-free segment followed
by a separator yields that segment and then the split of the rest. -/
theorem pySplit_sep_cons (sep : Char) (pre rest : List Char) (h : sep ∉ pre) :
    pySplit sep (pre ++ sep :: rest) = pre :: pySplit sep rest := by
  induction pre with
  | nil =>
    simp only [List.nil_append, pySplit]
    cases hr : pySplit sep rest with
    | nil => simp [hr]
    | cons r rs => simp [hr]
  | cons c cs ih =>
    have hc : c ≠ sep := by intro hc; exact h (by simp [hc])
    have ih2 := ih (by intro hm; exact h (List.mem_cons_of_mem _ hm))
    simp [pySplit, ih2, hc]

/-- Splitting a separator-free list yields that list as the only field. -/
theorem pySplit_no_sep (sep : Char) (l : List Char) (h : sep ∉ l) :
    pySplit sep l = [l] := by
  induction l with
  | nil => rfl
  | cons c cs ih =>
    have hc : c ≠ sep := by intro hc; exact h (by simp [hc])
    have ih2 := ih (by intro hm; exact h (List.mem_cons_of_mem _ hm))
    simp [pySplit, ih2, hc]

/-- Rescanning the binary directory starting from the dll name a first
scan produced changes nothing: the scan result is determined by the
directory content except that, with no match, the initial name is kept,
and the first scan already returned that name. -/
theorem copy_game_dll_idem (pp : String) (files : List (String × Nat)) (d : String) :
    copy_game_dll pp files (copy_game_dll pp files d).1
      = copy_game_dll pp files d := by
  induction files generalizing d with
  | nil => rfl
  | cons f fs ih =>
    by_cases h : gmatch (joinP (joinP (joinP pp "bin") "win_x64") f.1).data "*.dll".data = true
    · simp [copy_game_dll, h]
    · simp only [copy_game_dll, h, Bool.false_eq_true, if_false]
      exact ih d

/-- A scan of a binary directory with no dll-matching entry keeps the
incoming dll name and copies nothing. -/
theorem copy_game_dll_no_match (pp : String) (files : List (String × Nat)) (d : String)
    (h : ∀ f ∈ files,
      gmatch (joinP (joinP (joinP pp "bin") "win_x64") f.1).data "*.dll".data = false) :
    copy_game_dll pp files d = (d, []) := by
  induction files with
  | nil => rfl
  | cons f fs ih =>
    have hf := h f (List.mem_cons_self f fs)
    rw [copy_game_dll, if_neg (by simp [hf])]
    exact ih (fun g hg => h g (List.mem_cons_of_mem f hg))

/-- C1: for every exclude pattern and every walked file whose path
relative to the copy root bin/win_x64 matches it under the shell-style
wildcard matching the script uses, copy_engine_binaries never copies
that file; and every walked file whose relative path matches no exclude
pattern is copied to the same relative path with identical content. -/
theorem C1_engine_binary_mirror (files : List (String × Nat)) (rel : String) (c : Nat) :
    ((∃ P ∈ excludes, fnmatchB rel P = true) →
        ("bin/win_x64/" ++ rel, c) ∉ copy_engine_binaries (joinP "bin" "win_x64") files) ∧
    (("bin/win_x64/" ++ rel, c) ∈ files →
      (∀ P ∈ excludes, fnmatchB rel P = false) →
        ("bin/win_x64/" ++ rel, c) ∈ copy_engine_binaries (joinP "bin" "win_x64") files) := by
  constructor
  · rintro ⟨P, hP, hm⟩ hmem
    have h2 := (List.mem_filter.mp hmem).2
    simp only [Bool.not_eq_eq_eq_not, Bool.not_true, List.any_eq_false] at h2
    have := h2 P hP
    rw [fnmatch_join_root rel P] at this
    exact absurd hm (by simp [this])
  · intro hmem hall
    apply List.mem_filter.mpr
    refine ⟨hmem, ?_⟩
    simp only [Bool.not_eq_eq_eq_not, Bool.not_true, List.any_eq_false]
    intro pat hp
    rw [fnmatch_join_root rel pat]
    simp [hall pat hp]

/-- C1 witness: in a listing with one excluded and one retained file,
the Qt library (matched by the pattern Qt followed by a star) is never
copied and the CrySystem library is copied unchanged. -/
theorem C1_engine_binary_mirror_witness :
    ("bin/win_x64/Qt5Core.dll", 1) ∉
      copy_engine_binaries (joinP "bin" "win_x64")
        [("bin/win_x64/Qt5Core.dll", 1), ("bin/win_x64/CrySystem.dll", 2)] ∧
    ("bin/win_x64/CrySystem.dll", 2) ∈
      copy_engine_binaries (joinP "bin" "win_x64")
        [("bin/win_x64/Qt5Core.dll", 1), ("bin/win_x64/CrySystem.dll", 2)] :=
  ⟨(C1_engine_binary_mirror _ "Qt5Core.dll" 1).1 ⟨"Qt*", by decide, by decide⟩,
   (C1_engine_binary_mirror _ "CrySystem.dll" 2).2 (by decide) (by decide)⟩

/-- C2: with the lookup table mapping 5.3 and 5.4 to their paths, a
descriptor requiring engine-5.3 resolves to /opt/engine53, and one
requiring engine-5.9 fails with the version-not-found error instead of
returning a path. -/
theorem C2_engine_path_resolution :
    (get_engine_path true [("5.3", "/opt/engine53"), ("5.4", "/opt/engine54")]
        ⟨"engine-5.3"⟩).2 = Except.ok "/opt/engine53" ∧
    (get_engine_path true [("5.3", "/opt/engine53"), ("5.4", "/opt/engine54")]
        ⟨"engine-5.9"⟩).2
      = Except.error (PyErr.osError "Engine version 5.9 not found.") :=
  ⟨rfl, rfl⟩

/-- C3: a walked file under the levels subtree is copied to the
equivalent relative path under the export Assets directory exactly when
its file name is in the whitelist, and on the concrete L1 example only
filelist.xml is copied. -/
theorem C3_copy_levels_whitelist (files : List LevelFile) (f : LevelFile) :
    (f ∈ files → f.name ∈ level_files →
        (joinP "Assets" (joinP f.root f.name), f.content) ∈ copy_levels files) ∧
    (∀ q ∈ copy_levels files, ∃ g, g ∈ files ∧ g.name ∈ level_files ∧
        q = (joinP "Assets" (joinP g.root g.name), g.content)) ∧
    copy_levels [⟨"levels/L1", "filelist.xml", 7⟩, ⟨"levels/L1", "notes.txt", 8⟩]
      = [("Assets/levels/L1/filelist.xml", 7)] := by
  refine ⟨?_, ?_, by decide⟩
  · intro hmem hwl
    apply List.mem_map_of_mem
    exact List.mem_filter.mpr ⟨hmem, by simpa [level_files] using hwl⟩
  · intro q hq
    rcases List.mem_map.mp hq with ⟨g, hg, hgq⟩
    have hgf := List.mem_filter.mp hg
    exact ⟨g, hgf.1, by simpa [level_files] using hgf.2, hgq.symm⟩

/-- C3 witness: the whitelisted filelist.xml of level L1 is copied, a
non-whitelisted notes.txt is only ever copied if whitelisted, and the
concrete two-file example produces exactly the one copy. -/
theorem C3_copy_levels_whitelist_witness :
    ("Assets/levels/L1/filelist.xml", 7) ∈
      copy_levels [⟨"levels/L1", "filelist.xml", 7⟩, ⟨"levels/L1", "notes.txt", 8⟩] ∧
    copy_levels [⟨"levels/L1", "filelist.xml", 7⟩, ⟨"levels/L1", "notes.txt", 8⟩]
      = [("Assets/levels/L1/filelist.xml", 7)] :=
  ⟨(C3_copy_levels_whitelist
        [⟨"levels/L1", "filelist.xml", 7⟩, ⟨"levels/L1", "notes.txt", 8⟩]
        ⟨"levels/L1", "filelist.xml", 7⟩).1 (by decide) (by decide),
   (C3_copy_levels_whitelist [] ⟨"", "", 0⟩).2.2⟩

/-- C4: for every recorded game-library name the written system.cfg
holds exactly the asset-folder line followed by the game-library line,
and for MyGame.dll the content is the expected concrete string. -/
theorem C4_create_config_content (N : String) :
    create_config N
      = ("system.cfg", FData.text ("sys_game_folder=Assets\nsys_dll_game=" ++ N ++ "\n")) ∧
    create_config "MyGame.dll"
      = ("system.cfg", FData.text "sys_game_folder=Assets\nsys_dll_game=MyGame.dll\n") := by
  constructor
  · apply congrArg (Prod.mk "system.cfg")
    apply congrArg FData.text
    apply String.ext
    simp only [String.data_append]
    simp [List.cons_append, List.nil_append, List.append_assoc]
  · rfl

/-- C5 counterexample: on a non-Windows platform with the required
version present in the registry data, get_engine_path fails with the
plain version-not-found OSError, and that failure is identical to the
one produced on Windows with an empty table: there is no distinct
unsupported-platform error kind. -/
theorem C5_counterexample :
    (get_engine_path false [("5.3", "/opt/engine53")] ⟨"engine-5.3"⟩).2
      = Except.error (PyErr.osError "Engine version 5.3 not found.") ∧
    (get_engine_path false [("5.3", "/opt/engine53")] ⟨"engine-5.3"⟩).2
      = (get_engine_path true [] ⟨"engine-5.3"⟩).2 :=
  ⟨rfl, rfl⟩

/-- C5 amended: on a non-Windows platform the resolver produces no
lookup candidates and prints an informational unsupported-platform
notice, then fails with the same version-not-found OSError raised when
the version is absent from the table; no distinct error kind exists. -/
theorem C5_unsupported_platform (registry : List (String × String)) (tag version : String)
    (h : extracted_version tag = some version) :
    get_engine_path false registry ⟨tag⟩
      = ([OutMsg.unsupportedPlatform, OutMsg.foundEngines []],
         Except.error (PyErr.osError ("Engine version " ++ version ++ " not found."))) := by
  simp [get_engine_path, h, candidate_table, lookupLast]

/-- C5 witness: the amended statement at a concrete non-Windows run. -/
theorem C5_unsupported_platform_witness :
    get_engine_path false [("5.3", "/opt/engine53")] ⟨"engine-5.3"⟩
      = ([OutMsg.unsupportedPlatform, OutMsg.foundEngines []],
         Except.error (PyErr.osError ("Engine version " ++ "5.3" ++ " not found."))) :=
  C5_unsupported_platform [("5.3", "/opt/engine53")] "engine-5.3" "5.3" (by decide)

/-- C6 counterexample: with the two-entry table and a missing version,
the raised error carries the message naming only the missing version;
no entry of the table (neither a path nor the other version string)
occurs in that message, so the failure message does not include the
enumerated table. -/
theorem C6_counterexample :
    (get_engine_path true [("5.3", "/opt/engine53"), ("5.4", "/opt/engine54")]
        ⟨"engine-5.9"⟩).2
      = Except.error (PyErr.osError "Engine version 5.9 not found.") ∧
    containsSub "/opt/engine53".data "Engine version 5.9 not found.".data = false ∧
    containsSub "/opt/engine54".data "Engine version 5.9 not found.".data = false ∧
    containsSub "5.4".data "Engine version 5.9 not found.".data = false :=
  ⟨rfl, by decide, by decide, by decide⟩

/-- C6 amended: whenever the resolved version is absent from the
candidate table, get_engine_path raises an OSError whose message names
only the missing version, and the fully enumerated table is emitted as
a diagnostic message before the failure rather than inside the error
message. -/
theorem C6_version_not_found_report (isWindows : Bool) (registry : List (String × String))
    (tag version : String)
    (h1 : extracted_version tag = some version)
    (h2 : lookupLast (candidate_table isWindows registry) version = none) :
    (get_engine_path isWindows registry ⟨tag⟩).2
      = Except.error (PyErr.osError ("Engine version " ++ version ++ " not found.")) ∧
    OutMsg.foundEngines (candidate_table isWindows registry)
      ∈ (get_engine_path isWindows registry ⟨tag⟩).1 := by
  simp [get_engine_path, h1, h2]

/-- C6 witness: the amended statement at a concrete missing version. -/
theorem C6_version_not_found_report_witness :
    (get_engine_path true [("5.3", "/opt/engine53")] ⟨"engine-5.9"⟩).2
      = Except.error (PyErr.osError ("Engine version " ++ "5.9" ++ " not found.")) ∧
    OutMsg.foundEngines (candidate_table true [("5.3", "/opt/engine53")])
      ∈ (get_engine_path true [("5.3", "/opt/engine53")] ⟨"engine-5.9"⟩).1 :=
  C6_version_not_found_report true [("5.3", "/opt/engine53")] "engine-5.9" "5.9"
    (by decide) (by decide)

/-- C7 counterexample: for the tag engine-5.3-beta the code extracts
5.3, not the entire substring after the first separator, which is
5.3-beta; consequently a table keyed by the full remainder is not
found. -/
theorem C7_counterexample :
    extracted_version "engine-5.3-beta" = some "5.3" ∧
    spec_version_after_first_sep "engine-5.3-beta" = "5.3-beta" ∧
    extracted_version "engine-5.3-beta"
      ≠ some (spec_version_after_first_sep "engine-5.3-beta") ∧
    (get_engine_path true [("5.3-beta", "/opt/beta")] ⟨"engine-5.3-beta"⟩).2
      = Except.error (PyErr.osError "Engine version 5.3 not found.") :=
  ⟨by decide, by decide, by decide, rfl⟩

/-- C7 amended: the version used for the lookup is the second
dash-separated field of the tag, that is the substring after the first
separator truncated at the next separator when one exists, and the
whole remainder only when the version part itself has no separator. -/
theorem C7_version_extraction (pre mid rest : String)
    (h1 : '-' ∉ pre.data) (h2 : '-' ∉ mid.data) :
    extracted_version (pre ++ "-" ++ mid ++ "-" ++ rest) = some mid ∧
    extracted_version (pre ++ "-" ++ mid) = some mid := by
  constructor
  · rw [extracted_version]
    have e1 : (pre ++ "-" ++ mid ++ "-" ++ rest).data
        = pre.data ++ '-' :: (mid.data ++ '-' :: rest.data) := by
      simp [String.data_append]
    rw [e1, pySplit_sep_cons '-' pre.data _ h1, pySplit_sep_cons '-' mid.data _ h2]
    simp [string_mk_data]
  · rw [extracted_version]
    have e1 : (pre ++ "-" ++ mid).data = pre.data ++ '-' :: mid.data := by
      simp [String.data_append]
    rw [e1, pySplit_sep_cons '-' pre.data _ h1, pySplit_no_sep '-' mid.data h2]
    simp [string_mk_data]

/-- C7 witness: the amended statement at the concrete tag parts engine,
5.3 and beta. -/
theorem C7_version_extraction_witness :
    extracted_version ("engine" ++ "-" ++ "5.3" ++ "-" ++ "beta") = some "5.3" ∧
    extracted_version ("engine" ++ "-" ++ "5.3") = some "5.3" :=
  C7_version_extraction "engine" "5.3" "beta" (by decide) (by decide)

/-- C8: when no file of the binary directory matches the dll pattern,
copy_game_dll copies nothing and leaves the dll name at the module
default, so the configuration written afterwards names Game.dll. -/
theorem C8_game_dll_no_match_fallback (project_path : String) (files : List (String × Nat))
    (h : ∀ f ∈ files,
      gmatch (joinP (joinP (joinP project_path "bin") "win_x64") f.1).data
        "*.dll".data = false) :
    copy_game_dll project_path files dll_name0 = (dll_name0, []) ∧
    create_config (copy_game_dll project_path files dll_name0).1
      = ("system.cfg", FData.text "sys_game_folder=Assets\nsys_dll_game=Game.dll\n") := by
  have h1 := copy_game_dll_no_match project_path files dll_name0 h
  refine ⟨h1, ?_⟩
  rw [h1]
  rfl

/-- C8 witness: a binary directory holding only a text file and a pdb
produces no copy and the default configuration. -/
theorem C8_game_dll_no_match_fallback_witness :
    copy_game_dll "C:/Games/MyProj" [("readme.txt", 5), ("Game.pdb", 6)] dll_name0
      = (dll_name0, []) ∧
    create_config
        (copy_game_dll "C:/Games/MyProj" [("readme.txt", 5), ("Game.pdb", 6)] dll_name0).1
      = ("system.cfg", FData.text "sys_game_folder=Assets\nsys_dll_game=Game.dll\n") :=
  C8_game_dll_no_match_fallback "C:/Games/MyProj" [("readme.txt", 5), ("Game.pdb", 6)]
    (by decide)

/-- C9: for a fixed source state, running the pipeline a second time
over the state the first run left behind rebuilds a byte-identical
export tree, because the export directory is deleted and recreated and
the dll name the first run recorded is recomputed identically. -/
theorem C9_pipeline_idempotent (src : Source) (st : List (String × FData) × String) :
    run_pipeline src (run_pipeline src st) = run_pipeline src st := by
  show build_export src (copy_game_dll src.project_path src.binFiles st.2).1
      = build_export src st.2
  simp only [build_export]
  rw [copy_game_dll_idem]

/-- C10: package_assets skips a top-level entry exactly when the
lower-cased absolute item path contains the substring levels (apart
from the separate editor-archive suffix skip); a project path that
itself contains levels in any letter case therefore makes the packager
produce nothing at all, and an entry merely containing levels in its
name, such as MyLevelsPack, is skipped too. -/
theorem C10_level_marker_substring (pp : String) (entries : List AssetEntry) (e : AssetEntry) :
    (containsSub "levels".data (pyLower (joinP (joinP pp "Assets") (entryName e))).data = true →
        package_one pp e = []) ∧
    (containsSub "levels".data (pyLower pp).data = true →
        package_assets pp entries = []) ∧
    (containsSub "levels".data (pyLower (joinP (joinP pp "Assets") (entryName e))).data = false →
        pyEndsWith (joinP (joinP pp "Assets") (entryName e)) ".cryasset.pak" = false →
        package_one pp e ≠ []) ∧
    package_one "C:/Games/MyProj" (AssetEntry.dir "MyLevelsPack" [("a", 1)]) = [] := by
  refine ⟨?_, ?_, ?_, by decide⟩
  · intro h
    simp [package_one, h]
  · intro h
    rw [package_assets, List.flatMap_eq_nil_iff]
    intro a ha
    have h3 := containsSub_append_right "levels".data (pyLower pp).data
      (List.map Char.toLower ("/Assets/".data ++ (entryName a).data)) h
    have e2 : (pyLower (joinP (joinP pp "Assets") (entryName a))).data
        = (pyLower pp).data
            ++ List.map Char.toLower ("/Assets/".data ++ (entryName a).data) := by
      simp [pyLower, joinP, String.data_append, List.map_append, List.append_assoc]
    rw [← e2] at h3
    simp [package_one, h3]
  · intro h1 h2
    cases e with
    | file n c =>
      simp [package_one, entryName] at h1 h2 ⊢
      simp [h1, h2]
    | dir n fs =>
      simp [package_one, entryName] at h1 h2 ⊢
      simp [h1, h2]

/-- C10 witness: an entry whose name contains levels is skipped, a
project path containing levels suppresses all packaging, and a clean
entry is packaged. -/
theorem C10_level_marker_substring_witness :
    package_one "C:/Games/MyProj" (AssetEntry.file "levelshot.png" 3) = [] ∧
    package_assets "C:/Games/levelsGame"
      [AssetEntry.file "a.txt" 1, AssetEntry.dir "Textures" []] = [] ∧
    package_one "C:/Games/MyProj" (AssetEntry.file "tex.dds" 4) ≠ [] ∧
    package_one "C:/Games/MyProj" (AssetEntry.dir "MyLevelsPack" [("a", 1)]) = [] :=
  ⟨(C10_level_marker_substring "C:/Games/MyProj" []
      (AssetEntry.file "levelshot.png" 3)).1 (by decide),
   (C10_level_marker_substring "C:/Games/levelsGame"
      [AssetEntry.file "a.txt" 1, AssetEntry.dir "Textures" []]
      (AssetEntry.file "x" 0)).2.1 (by decide),
   (C10_level_marker_substring "C:/Games/MyProj" []
      (AssetEntry.file "tex.dds" 4)).2.2.1 (by decide) (by decide),
   (C10_level_marker_substring "C:/Games/MyProj" []
      (AssetEntry.dir "MyLevelsPack" [("a", 1)])).2.2.2⟩

end ReleaseCE
